import Mathlib

/-!
Verification of the PyPOTS imputation base module
(`pypots/imputation/base.py`): the `BaseNNImputer` training loop
(`_train_model`), its construction-time configuration, and the abstract
`BaseImputer.fit`/`impute` contract exercised by the LOCF tests.

Modelling conventions.
* Scalar losses are rationals (`ℚ`); Python's `float('inf')` initial best
  loss is encoded as `Option ℚ` with `none` standing for `+∞` (every
  rational is strictly below it, matching `mean_loss < float('inf')`).
* Integer-valued Python attributes (`epochs`, `patience`, `batch_size`)
  are `Int`, since `self.patience -= 1` can drive the counter negative.
* The external collaborators (model forward pass, data loaders, gradient
  dynamics) are abstracted by the per-epoch per-batch loss sequences
  `TL : Nat → List ℚ` (training) and optionally `VL` (validation), and by
  the live parameter trajectory `PA : Nat → Int` (parameters of the live
  model after epoch `i`'s optimizer steps).  The loop's own control flow
  (logging, best tracking, patience, early stop) is translated line by
  line from the source.
* `torch.optim.Adam` internal state is abstracted as its construction
  configuration plus an accumulated step count (fresh construction has
  step count 0).
* `self.model.state_dict()` is modelled per PyTorch semantics: the
  returned dict holds references to the live parameter tensors, which
  later `optimizer.step()` calls mutate in place.  The retained
  `best_model_dict` therefore records the capture epoch, and reading its
  contents after the run dereferences to the live parameters at that
  time (`snapshotContents`), while the value it held at capture time is
  `paramsAtCapture`.
-/

/-- `np.mean` over the collected per-batch losses of one epoch.
(On an empty list `np.mean` is NaN; in `ℚ` the division yields 0.  No
claim is about empty loaders.) -/
def qmean (l : List ℚ) : ℚ := l.sum / (l.length : ℚ)

/-- Internal state of `torch.optim.Adam(self.model.parameters(), lr=..,
weight_decay=..)`: construction configuration plus accumulated internal
step state (moment estimates abstracted as a step count). -/
structure AdamState where
  lr : ℚ
  weight_decay : ℚ
  step_count : Nat

/-- A freshly constructed Adam optimizer (line 83-85): zero internal
state, configured learning rate and weight decay. -/
def adamNew (lr weight_decay : ℚ) : AdamState :=
  { lr := lr, weight_decay := weight_decay, step_count := 0 }

/-- The attributes of `BaseNNImputer` set in `__init__` (lines 59-76)
and mutated by `_train_model`.  `best_model_dict` holds the epoch index
at which `self.model.state_dict()` was captured (`none` = Python
`None`); `best_loss = none` encodes `float('inf')`.  The `device` and
`model` attributes are opaque externals and are not represented. -/
structure BaseNNImputer where
  batch_size : Int
  epochs : Int
  patience : Int
  lr : ℚ
  weight_decay : ℚ
  optimizer : Option AdamState
  best_model_dict : Option Nat
  best_loss : Option ℚ
  logger_training_loss : List ℚ
  logger_validating_loss : List ℚ

/-- The record produced by `BaseNNImputer.__init__` (lines 59-76):
hyperparameters stored verbatim, `model`/`optimizer` set to `None`,
`best_model_dict = None`, `best_loss = float('inf')`, empty logger. -/
def mkImputer (learning_rate : ℚ) (epochs patience batch_size : Int)
    (weight_decay : ℚ) : BaseNNImputer :=
  { batch_size := batch_size
    epochs := epochs
    patience := patience
    lr := learning_rate
    weight_decay := weight_decay
    optimizer := none
    best_model_dict := none
    best_loss := none
    logger_training_loss := []
    logger_validating_loss := [] }

/-- `BaseNNImputer.__init__` as a fallible constructor.  The source body
(lines 59-76) contains no validation and no `raise`, so construction
always succeeds. -/
def BaseNNImputer.init (learning_rate : ℚ) (epochs patience batch_size : Int)
    (weight_decay : ℚ) : Except String BaseNNImputer :=
  .ok (mkImputer learning_rate epochs patience batch_size weight_decay)

/-- `mean_loss < self.best_loss` (line 122), with `none` as
`float('inf')`: every rational is strictly below infinity. -/
def ltBest (m : ℚ) : Option ℚ → Bool
  | none => true
  | some b => decide (m < b)

/-- The monitored loss of epoch `i` (lines 113-120): the validation
epoch mean when a validation loader was supplied, else the training
epoch mean. -/
def monitored (TL : Nat → List ℚ) (VL : Option (Nat → List ℚ)) (i : Nat) : ℚ :=
  match VL with
  | none => qmean (TL i)
  | some vl => qmean (vl i)

/-- State threaded through the `for epoch in range(self.epochs)` loop:
the mutated object attributes, the number of epochs fully processed, and
whether the `break` at line 129 fired. -/
structure LoopSt where
  st : BaseNNImputer
  epochs_run : Nat
  stopped_early : Bool

/-- One-epoch-at-a-time execution of the loop body of `_train_model`
(lines 91-129), starting at epoch index `i` with `fuel` epochs left in
the budget:
* lines 92-100: training pass — one `optimizer.step()` per batch, the
  per-batch scalar losses are `TL i`;
* line 102: `logger['training_loss'].extend(epoch_train_loss_collector)`;
* lines 104-111: if a validation loader is present, a forward-only pass
  collects `VL i`, and then line 111 extends
  `logger['validating_loss']` with `epoch_train_loss_collector` — the
  TRAINING collector — exactly as written in the source;
* lines 113-120: `mean_loss` is the monitored loss;
* lines 122-124: on strict improvement, update `best_loss` and capture
  `state_dict` (recorded by its epoch index), leaving patience alone;
* lines 125-129: otherwise `self.patience -= 1`, and if the decremented
  counter equals exactly 0, `break`. -/
def runFrom (TL : Nat → List ℚ) (VL : Option (Nat → List ℚ)) :
    Nat → Nat → LoopSt → LoopSt
  | _, 0, s => s
  | i, Nat.succ fuel, s =>
    let tl := TL i
    let st1 : BaseNNImputer :=
      { s.st with
        logger_training_loss := s.st.logger_training_loss ++ tl
        logger_validating_loss :=
          if VL.isSome then s.st.logger_validating_loss ++ tl
          else s.st.logger_validating_loss
        optimizer := s.st.optimizer.map
          (fun o => { o with step_count := o.step_count + tl.length }) }
    let m := monitored TL VL i
    if ltBest m st1.best_loss then
      runFrom TL VL (i + 1) fuel
        ⟨{ st1 with best_loss := some m, best_model_dict := some i },
          i + 1, false⟩
    else
      let p := st1.patience - 1
      if p = 0 then ⟨{ st1 with patience := p }, i + 1, true⟩
      else runFrom TL VL (i + 1) fuel ⟨{ st1 with patience := p }, i + 1, false⟩

/-- The state of the object right before the epoch loop of
`_train_model` starts: a fresh Adam optimizer built from the live model
parameters with the configured learning rate and weight decay
(lines 83-85), and `best_loss`/`best_model_dict` reset (lines 88-89).
`self.patience` and the logger are NOT touched here. -/
def trainInit (st : BaseNNImputer) : BaseNNImputer :=
  { st with
    optimizer := some (adamNew st.lr st.weight_decay)
    best_loss := none
    best_model_dict := none }

/-- `BaseNNImputer._train_model(training_loader, val_loader)`
(lines 82-130): optimizer construction, best-state reset, then the epoch
loop over `range(self.epochs)` (empty when `epochs ≤ 0`, matching
Python's `range`). -/
def trainModel (st : BaseNNImputer) (TL : Nat → List ℚ)
    (VL : Option (Nat → List ℚ)) : LoopSt :=
  runFrom TL VL 0 st.epochs.toNat ⟨trainInit st, 0, false⟩

/-- The live model's parameter value once `_train_model` has returned:
the initial parameters if no epoch ran, else the parameters after the
last epoch's optimizer steps. -/
def liveParams (PA : Nat → Int) (P0 : Int) (r : LoopSt) : Int :=
  match r.epochs_run with
  | 0 => P0
  | Nat.succ k => PA k

/-- The parameter values readable from the retained `best_model_dict`
after `_train_model` returns.  `state_dict()` returns references to the
live tensors and `optimizer.step()` mutates them in place, so
dereferencing the retained dict yields the live parameters at
termination, not the values at capture time. -/
def snapshotContents (PA : Nat → Int) (P0 : Int) (r : LoopSt) : Option Int :=
  r.st.best_model_dict.map (fun _ => liveParams PA P0 r)

/-- The parameter values the live model held at the moment the retained
snapshot was captured (after the capture epoch's training pass). -/
def paramsAtCapture (PA : Nat → Int) (r : LoopSt) : Option Int :=
  r.st.best_model_dict.map PA

/-! ### The abstract imputation contract and LOCF

Time-series data `[n_samples, time steps, n_features]` with possible
missing entries is a 3-level list of `Option ℚ`, `none` being a missing
value (NaN). -/

/-- Time-series data: samples × time steps × features, `none` = missing. -/
abbrev TSData : Type := List (List (List (Option ℚ)))

/-- The shape of a data array: per sample, per time step, the feature
count ("identical shape" = equal `shape`). -/
def shape (X : TSData) : List (List Nat) :=
  X.map (fun sample => sample.map List.length)

/-- Whether any missing entry remains anywhere in the data. -/
def hasMissing (X : TSData) : Bool :=
  X.any (fun sample => sample.any (fun row => row.any Option.isNone))

/-- Error kinds for the imputer facade. -/
inductive ImputerError where
  | notFitted : ImputerError

/-- Modelled from the spec: the concrete neural imputers' `impute` is
not under `src/` (only the abstract `BaseImputer.impute` declaration
is).  Per the spec, "Calling `impute`/predict before any successful
epoch has produced a snapshot is a usage error ... the Imputer Facade
must fail with a `NotFitted`-kind error"; with a snapshot present it
returns same-shape data produced by the trained model (the network's
output is external and out of scope, so the data is passed through). -/
def imputeChecked (st : BaseNNImputer) (X : TSData) : Except ImputerError TSData :=
  match st.best_model_dict with
  | none => .error .notFitted
  | some _ => .ok X

/-- Fill one time step's feature row from the carried last observations:
an observed value is kept and becomes the new carry, a missing value is
replaced by the carry for that feature (missing if no carry yet).
Preserves the row's length even on ragged input. -/
def fillRow : List (Option ℚ) → List (Option ℚ) → List (Option ℚ)
  | [], _ => []
  | x :: xs, [] => x :: fillRow xs []
  | x :: xs, c :: cs =>
    (match x with
     | some v => some v
     | none => c) :: fillRow xs cs

/-- Forward pass of last-observation-carried-forward over the time steps
of one sample: each filled row is the carry for the next time step. -/
def forwardFill (carry : List (Option ℚ)) : List (List (Option ℚ)) → List (List (Option ℚ))
  | [] => []
  | r :: rs =>
    let r2 := fillRow r carry
    r2 :: forwardFill r2 rs

/-- The `first_step_imputation` strategies of `LOCF` exercised by
`tests/imputation/locf.py` (lines 30-33). -/
inductive FirstStep where
  | zero
  | backward
  | mean
  | nan

/-- The observed (non-missing) values of feature column `j` across the
time steps of one sample. -/
def colObserved (rows : List (List (Option ℚ))) (j : Nat) : List ℚ :=
  rows.foldr
    (fun r acc =>
      match r.getD j none with
      | some v => v :: acc
      | none => acc) []

/-- The value used for entries still missing after the forward pass
(entries before the first observation of their feature): `0` for
`zero`, the first observed value for `backward`, the mean of the
observed values for `mean`, and left missing for `nan`. -/
def firstStepValue (strat : FirstStep) (rows : List (List (Option ℚ)))
    (j : Nat) : Option ℚ :=
  match strat with
  | .zero => some 0
  | .nan => none
  | .backward => (colObserved rows j).head?
  | .mean =>
    match colObserved rows j with
    | [] => none
    | l => some (qmean l)

/-- Replace the entries of a row that are still missing by the
first-step value of their feature column (`j` is the index of the first
entry of the row). -/
def fillLeadingRow (f : Nat → Option ℚ) : Nat → List (Option ℚ) → List (Option ℚ)
  | _, [] => []
  | j, x :: xs =>
    (match x with
     | some v => some v
     | none => f j) :: fillLeadingRow f (j + 1) xs

/-- Modelled from the spec: the `LOCF` imputer's transform on one sample
is absent from `src/` — the spec describes it as the
"last-observation-carry-forward ... single-pass array transform", and
`tests/imputation/locf.py` fixes the four `first_step_imputation`
strategies.  Carry each feature's last observation forward across time
steps, then fill entries with no preceding observation per the
strategy. -/
def locfSample (strat : FirstStep) (rows : List (List (Option ℚ))) :
    List (List (Option ℚ)) :=
  (forwardFill [] rows).map (fillLeadingRow (firstStepValue strat rows) 0)

/-- Modelled from the spec: `LOCF.impute` applied sample-wise. -/
def locfImpute (strat : FirstStep) (X : TSData) : TSData :=
  X.map (locfSample strat)

/-- The best-tracking invariant of `_train_model` after `k` epochs of
one call: the snapshot is absent exactly when no epoch ran; when present
it was captured at the epoch of the strictly lowest monitored loss seen
so far (earlier epochs are strictly worse — ties do not recapture), and
`best_loss` holds that epoch's monitored loss. -/
def BestInv (TL : Nat → List ℚ) (VL : Option (Nat → List ℚ)) (k : Nat)
    (bl : Option ℚ) (bc : Option Nat) : Prop :=
  (bc = none ↔ k = 0) ∧ (bc = none → bl = none) ∧
  ∀ i, bc = some i →
    i < k ∧ bl = some (monitored TL VL i) ∧
    (∀ j, j < k → monitored TL VL i ≤ monitored TL VL j) ∧
    (∀ j, j < i → monitored TL VL i < monitored TL VL j)

/-! ### Concrete runs used as counterexamples, failing inputs and
witness inputs -/

/-- Epoch budget 2, patience 0; epoch losses 1 then 2 (the second epoch
does not improve). -/
def c1St : BaseNNImputer := mkImputer 1 2 0 32 0

def c1TL : Nat → List ℚ := fun i => ([[1], [2]] : List (List ℚ)).getD i []

/-- Epoch budget 3, patience 3. -/
def c2St : BaseNNImputer := mkImputer 1 3 3 32 0

/-- First call: losses 1, 2, 2 — two non-improving epochs. -/
def c2TL1 : Nat → List ℚ := fun i => ([[1], [2], [2]] : List (List ℚ)).getD i []

/-- Second call: losses 1, 2, 1/2 — one non-improving epoch, then an
improvement. -/
def c2TL2 : Nat → List ℚ :=
  fun i => ([[1], [2], [1/2]] : List (List ℚ)).getD i []

/-- Epoch budget 1, patience 5. -/
def c3St : BaseNNImputer := mkImputer 1 1 5 32 0

def c3TL : Nat → List ℚ := fun _ => [1]

def c3VL : Nat → List ℚ := fun _ => [2]

/-- Epoch budget 2, patience 5; epoch losses 1/2 then 3/5: epoch 0 is
the best epoch. -/
def c4St : BaseNNImputer := mkImputer 1 2 5 32 0

def c4TL : Nat → List ℚ :=
  fun i => ([[1/2], [3/5]] : List (List ℚ)).getD i []

/-- Live parameter trajectory: 10 after epoch 0's steps, 20 after
epoch 1's steps. -/
def c4PA : Nat → Int := fun i => ([10, 20] : List Int).getD i 0

/-- Epoch budget 2, patience 5; epoch losses 1 then 2. -/
def c5St : BaseNNImputer := mkImputer 1 2 5 32 0

def c5TL : Nat → List ℚ := fun i => ([[1], [2]] : List (List ℚ)).getD i []

/-- Epoch budget 0. -/
def c7St : BaseNNImputer := mkImputer 1 0 5 32 0

theorem ltBest_lt_of_true {m : ℚ} {bl : Option ℚ} (h : ltBest m bl = true) :
    ∀ b, bl = some b → m < b := by
  intro b hb
  subst hb
  simpa [ltBest] using h

theorem ltBest_exists_of_false {m : ℚ} {bl : Option ℚ}
    (h : ltBest m bl = false) : ∃ b, bl = some b ∧ b ≤ m := by
  cases bl with
  | none => simp [ltBest] at h
  | some b =>
    refine ⟨b, rfl, ?_⟩
    simpa [ltBest, not_lt] using h

theorem bestInv_improve (TL : Nat → List ℚ) (VL : Option (Nat → List ℚ))
    (i : Nat) (bl : Option ℚ) (bc : Option Nat)
    (hinv : BestInv TL VL i bl bc)
    (h : ltBest (monitored TL VL i) bl = true) :
    BestInv TL VL (i + 1) (some (monitored TL VL i)) (some i) := by
  obtain ⟨hiff, _, hsome⟩ := hinv
  refine ⟨by simp, by simp, ?_⟩
  intro i2 hi2
  obtain rfl : i = i2 := Option.some.inj hi2
  refine ⟨Nat.lt_succ_self i, rfl, ?_, ?_⟩
  · intro j hj
    rcases Nat.lt_succ_iff_lt_or_eq.mp hj with hj2 | rfl
    · cases bc with
      | none =>
        have h0 : i = 0 := hiff.mp rfl
        exact absurd (h0 ▸ hj2) (Nat.not_lt_zero j)
      | some i0 =>
        obtain ⟨_, hbl, hle, _⟩ := hsome i0 rfl
        exact le_of_lt (lt_of_lt_of_le (ltBest_lt_of_true h _ hbl) (hle j hj2))
    · exact le_refl _
  · intro j hj
    cases bc with
    | none =>
      have h0 : i = 0 := hiff.mp rfl
      exact absurd (h0 ▸ hj) (Nat.not_lt_zero j)
    | some i0 =>
      obtain ⟨_, hbl, hle, _⟩ := hsome i0 rfl
      exact lt_of_lt_of_le (ltBest_lt_of_true h _ hbl) (hle j hj)

theorem bestInv_noImprove (TL : Nat → List ℚ) (VL : Option (Nat → List ℚ))
    (i : Nat) (bl : Option ℚ) (bc : Option Nat)
    (hinv : BestInv TL VL i bl bc)
    (h : ltBest (monitored TL VL i) bl = false) :
    BestInv TL VL (i + 1) bl bc := by
  obtain ⟨hiff, hnone, hsome⟩ := hinv
  obtain ⟨b, hb, hbm⟩ := ltBest_exists_of_false h
  cases bc with
  | none => simp [hnone rfl] at hb
  | some i0 =>
    obtain ⟨hi0, hbl, hle, hlt⟩ := hsome i0 rfl
    refine ⟨by simp, by simp, ?_⟩
    intro i2 hi2
    obtain rfl : i0 = i2 := Option.some.inj hi2
    refine ⟨Nat.lt_succ_of_lt hi0, hbl, ?_, hlt⟩
    intro j hj
    rcases Nat.lt_succ_iff_lt_or_eq.mp hj with hj2 | rfl
    · exact hle j hj2
    · have hbb : b = monitored TL VL i0 := by
        rw [hb] at hbl
        exact Option.some.inj hbl
      exact hbb ▸ hbm

theorem runFrom_inv (TL : Nat → List ℚ) (VL : Option (Nat → List ℚ))
    (fuel : Nat) : ∀ (i : Nat) (s : LoopSt),
    s.epochs_run = i →
    BestInv TL VL i s.st.best_loss s.st.best_model_dict →
    BestInv TL VL (runFrom TL VL i fuel s).epochs_run
      (runFrom TL VL i fuel s).st.best_loss
      (runFrom TL VL i fuel s).st.best_model_dict := by
  induction fuel with
  | zero =>
    intro i s hk hinv
    simpa [runFrom, hk] using hinv
  | succ fuel ih =>
    intro i s hk hinv
    simp only [runFrom]
    by_cases hc : ltBest (monitored TL VL i) s.st.best_loss = true
    · rw [if_pos hc]
      exact ih (i + 1) _ rfl (bestInv_improve TL VL i _ _ hinv hc)
    · have hc2 : ltBest (monitored TL VL i) s.st.best_loss = false :=
        Bool.eq_false_iff.mpr hc
      rw [if_neg hc]
      by_cases hp : s.st.patience - 1 = 0
      · rw [if_pos hp]
        exact bestInv_noImprove TL VL i _ _ hinv hc2
      · rw [if_neg hp]
        exact ih (i + 1) _ rfl (bestInv_noImprove TL VL i _ _ hinv hc2)

theorem runFrom_noStop (TL : Nat → List ℚ) (VL : Option (Nat → List ℚ))
    (fuel : Nat) : ∀ (i : Nat) (s : LoopSt),
    s.epochs_run = i → s.st.patience ≤ 0 → s.stopped_early = false →
    (runFrom TL VL i fuel s).epochs_run = i + fuel ∧
    (runFrom TL VL i fuel s).stopped_early = false := by
  induction fuel with
  | zero =>
    intro i s hk hp hs
    simp [runFrom, hk, hs]
  | succ fuel ih =>
    intro i s hk hp hs
    simp only [runFrom]
    by_cases hc : ltBest (monitored TL VL i) s.st.best_loss = true
    · rw [if_pos hc]
      refine ⟨Eq.trans ?_ (by omega : i + 1 + fuel = i + (fuel + 1)), ?_⟩
      · refine ((ih (i + 1) ?_ ?_ ?_ ?_).1 : _)
        · exact rfl
        · exact hp
        · exact rfl
      · refine ((ih (i + 1) ?_ ?_ ?_ ?_).2 : _)
        · exact rfl
        · exact hp
        · exact rfl
    · rw [if_neg hc]
      have hp2 : ¬(s.st.patience - 1 = 0) := by omega
      rw [if_neg hp2]
      refine ⟨Eq.trans ?_ (by omega : i + 1 + fuel = i + (fuel + 1)), ?_⟩
      · refine ((ih (i + 1) ?_ ?_ ?_ ?_).1 : _)
        · exact rfl
        · exact show s.st.patience - 1 ≤ 0 by omega
        · exact rfl
      · refine ((ih (i + 1) ?_ ?_ ?_ ?_).2 : _)
        · exact rfl
        · exact show s.st.patience - 1 ≤ 0 by omega
        · exact rfl

theorem length_fillRow : ∀ (r c : List (Option ℚ)), (fillRow r c).length = r.length := by
  intro r
  induction r with
  | nil => intro c; rfl
  | cons x xs ih =>
    intro c
    cases c with
    | nil => simp [fillRow, ih]
    | cons c0 cs => simp [fillRow, ih]

theorem length_fillLeadingRow (f : Nat → Option ℚ) :
    ∀ (r : List (Option ℚ)) (j : Nat), (fillLeadingRow f j r).length = r.length := by
  intro r
  induction r with
  | nil => intro j; rfl
  | cons x xs ih => intro j; simp [fillLeadingRow, ih]

theorem map_length_forwardFill :
    ∀ (rows : List (List (Option ℚ))) (c : List (Option ℚ)),
    (forwardFill c rows).map List.length = rows.map List.length := by
  intro rows
  induction rows with
  | nil => intro c; rfl
  | cons r rs ih =>
    intro c
    simp [forwardFill, length_fillRow, ih]

theorem map_length_locfSample (strat : FirstStep) (rows : List (List (Option ℚ))) :
    (locfSample strat rows).map List.length = rows.map List.length := by
  simp only [locfSample, List.map_map]
  have h1 : (forwardFill [] rows).map
      (List.length ∘ fillLeadingRow (firstStepValue strat rows) 0) =
      (forwardFill [] rows).map List.length := by
    apply List.map_congr_left
    intro r _
    exact length_fillLeadingRow _ r 0
  rw [h1, map_length_forwardFill]

theorem any_isNone_fillLeadingRow_zero (rows : List (List (Option ℚ))) :
    ∀ (r : List (Option ℚ)) (j : Nat),
    (fillLeadingRow (firstStepValue FirstStep.zero rows) j r).any Option.isNone = false := by
  intro r
  induction r with
  | nil => intro j; rfl
  | cons x xs ih =>
    intro j
    cases x with
    | none => simp [fillLeadingRow, firstStepValue, ih]
    | some v => simp [fillLeadingRow, ih]

theorem any_isNone_locfSample_zero (rows : List (List (Option ℚ))) :
    (locfSample FirstStep.zero rows).any (fun row => row.any Option.isNone) = false := by
  simp only [locfSample, List.any_map, List.any_eq_false]
  intro r _
  simp [Function.comp, any_isNone_fillLeadingRow_zero]

/-! ### The claims -/

/-- C1 as stated is false on the code: with `patience = 0`, epoch budget
2, and a non-improving second epoch (losses 1 then 2), `_train_model`
runs both configured epochs and never early-stops — after the decrement
`self.patience` is `-1`, and the `== 0` test at line 127 never fires. -/
theorem claim_C1_counterexample :
    c1St.patience = 0 ∧ c1St.epochs = 2 ∧
    ¬ monitored c1TL none 1 < monitored c1TL none 0 ∧
    (trainModel c1St c1TL none).epochs_run = 2 ∧
    (trainModel c1St c1TL none).stopped_early = false := by
  refine ⟨rfl, rfl, ?_, ?_, ?_⟩ <;>
    norm_num [trainModel, trainInit, runFrom, monitored, qmean, ltBest,
      c1TL, c1St, mkImputer]

/-- C1 (amended): for every configuration entering `_train_model` with
`patience = 0`, early stop never triggers: the decremented counter is
negative and never equals 0, so the loop always runs the full epoch
budget. -/
theorem claim_C1_patience_zero_runs_full_budget (st : BaseNNImputer)
    (TL : Nat → List ℚ) (VL : Option (Nat → List ℚ))
    (h : st.patience = 0) :
    (trainModel st TL VL).epochs_run = st.epochs.toNat ∧
    (trainModel st TL VL).stopped_early = false := by
  have key := runFrom_noStop TL VL st.epochs.toNat 0 ⟨trainInit st, 0, false⟩
    rfl (show st.patience ≤ 0 by omega) rfl
  exact ⟨key.1.trans (Nat.zero_add _), key.2⟩

theorem claim_C1_witness :
    (trainModel c1St c1TL none).epochs_run = c1St.epochs.toNat ∧
    (trainModel c1St c1TL none).stopped_early = false :=
  claim_C1_patience_zero_runs_full_budget c1St c1TL none rfl

/-- C2 as stated is false on the code: the remaining-patience counter is
the object attribute `self.patience`, which `_train_model` never resets
(lines 88-89 reset only `best_loss` and `best_model_dict`).  With
configured patience 3 and budget 3: the first call (losses 1, 2, 2)
leaves `patience = 1`; the second call (losses 1, 2, 1/2) then
early-stops after 2 epochs, while the same call on a fresh object runs
all 3 epochs and finds the better epoch-3 loss. -/
theorem claim_C2_counterexample :
    c2St.patience = 3 ∧
    (trainModel c2St c2TL1 none).st.patience = 1 ∧
    (trainModel (trainModel c2St c2TL1 none).st c2TL2 none).epochs_run = 2 ∧
    (trainModel (trainModel c2St c2TL1 none).st c2TL2 none).stopped_early = true ∧
    (trainModel c2St c2TL2 none).epochs_run = 3 ∧
    (trainModel c2St c2TL2 none).stopped_early = false := by
  refine ⟨rfl, ?_, ?_, ?_, ?_, ?_⟩ <;>
    norm_num [trainModel, trainInit, runFrom, monitored, qmean, ltBest,
      c2TL1, c2TL2, c2St, mkImputer]

/-- C2 (amended): at the start of every `_train_model` call the best
loss is reset to `float('inf')` and the best snapshot to absent — the
result never depends on the values those two fields carried in from
earlier calls — but the remaining-patience counter is the object's
`patience` attribute, carried over unreset from previous calls (and the
loss logs are likewise carried over and extended). -/
theorem claim_C2_best_reset_patience_carried (st : BaseNNImputer)
    (TL : Nat → List ℚ) (VL : Option (Nat → List ℚ))
    (bl : Option ℚ) (bc : Option Nat) :
    trainModel { st with best_loss := bl, best_model_dict := bc } TL VL =
      trainModel st TL VL ∧
    (trainInit st).best_loss = none ∧
    (trainInit st).best_model_dict = none ∧
    (trainInit st).patience = st.patience ∧
    (trainInit st).logger_training_loss = st.logger_training_loss ∧
    (trainInit st).logger_validating_loss = st.logger_validating_loss :=
  ⟨rfl, rfl, rfl, rfl, rfl, rfl⟩

/-- C3: the code contradicts the claim (and its own logger key): with
one epoch, training batch losses `[1]` and validation batch losses
`[2]`, line 111 extends `logger['validating_loss']` with the TRAINING
collector, so the validation log receives `[1]`, not the recorded
validation losses `[2]`. -/
theorem claim_C3_val_log_gets_training_losses :
    (trainModel c3St c3TL (some c3VL)).st.logger_validating_loss = c3TL 0 ∧
    c3TL 0 = [1] ∧ c3VL 0 = [2] ∧
    (trainModel c3St c3TL (some c3VL)).st.logger_validating_loss ≠ c3VL 0 := by
  refine ⟨?_, rfl, rfl, ?_⟩ <;>
    norm_num [trainModel, trainInit, runFrom, monitored, qmean, ltBest,
      c3TL, c3VL, c3St, mkImputer]

/-- C4: the code contradicts the claim: `self.model.state_dict()`
(line 124) returns references into the live parameter tensors, which the
later optimizer steps mutate in place.  With losses 1/2 then 3/5 the
snapshot is captured at epoch 0 (parameters 10), but after epoch 1's
steps (parameters 20) the retained dict reads 20, not the
capture-epoch-value 10. -/
theorem claim_C4_snapshot_aliases_live_params :
    (trainModel c4St c4TL none).st.best_model_dict = some 0 ∧
    c4PA 0 = 10 ∧
    snapshotContents c4PA 0 (trainModel c4St c4TL none) = some 20 ∧
    paramsAtCapture c4PA (trainModel c4St c4TL none) = some 10 ∧
    snapshotContents c4PA 0 (trainModel c4St c4TL none) ≠
      paramsAtCapture c4PA (trainModel c4St c4TL none) := by
  refine ⟨?_, rfl, ?_, ?_, ?_⟩ <;>
    norm_num [trainModel, trainInit, runFrom, monitored, qmean, ltBest,
      snapshotContents, paramsAtCapture, liveParams, c4TL, c4PA, c4St,
      mkImputer]

/-- C5: during every `_train_model` call the best snapshot is a single
optional slot; after the run (and, instantiating the epoch budget at any
smaller value, after every epoch of the run) it is absent exactly when
no epoch ran, and otherwise it was captured at the epoch of the lowest
monitored loss seen, with `best_loss` holding that loss; all strictly
earlier epochs have strictly greater monitored loss, so an epoch tying
the current best did not replace the snapshot. -/
theorem claim_C5_best_snapshot_is_strict_first_min (st : BaseNNImputer)
    (TL : Nat → List ℚ) (VL : Option (Nat → List ℚ)) :
    ((trainModel st TL VL).st.best_model_dict = none ↔
      (trainModel st TL VL).epochs_run = 0) ∧
    ((trainModel st TL VL).st.best_model_dict = none →
      (trainModel st TL VL).st.best_loss = none) ∧
    ∀ i, (trainModel st TL VL).st.best_model_dict = some i →
      i < (trainModel st TL VL).epochs_run ∧
      (trainModel st TL VL).st.best_loss = some (monitored TL VL i) ∧
      (∀ j, j < (trainModel st TL VL).epochs_run →
        monitored TL VL i ≤ monitored TL VL j) ∧
      (∀ j, j < i → monitored TL VL i < monitored TL VL j) := by
  have key := runFrom_inv TL VL st.epochs.toNat 0 ⟨trainInit st, 0, false⟩
    rfl ⟨by simp [trainInit], fun _ => rfl, fun i h => nomatch h⟩
  exact key

theorem claim_C5_witness :
    (trainModel c5St c5TL none).st.best_model_dict = some 0 ∧
    (trainModel c5St c5TL none).st.best_loss = some (monitored c5TL none 0) ∧
    monitored c5TL none 0 ≤ monitored c5TL none 1 := by
  have h0 : (trainModel c5St c5TL none).st.best_model_dict = some 0 := by
    norm_num [trainModel, trainInit, runFrom, monitored, qmean, ltBest,
      c5TL, c5St, mkImputer]
  have h1 : (1 : Nat) < (trainModel c5St c5TL none).epochs_run := by
    norm_num [trainModel, trainInit, runFrom, monitored, qmean, ltBest,
      c5TL, c5St, mkImputer]
  have key :=
    (claim_C5_best_snapshot_is_strict_first_min c5St c5TL none).2.2 0 h0
  exact ⟨h0, key.2.1, key.2.2.1 1 h1⟩

/-- C6: whenever `_train_model` completes with `i` among the epochs that
ran, the final best loss is defined and is at most epoch `i`'s monitored
loss (validation epoch mean when a validation loader was supplied, else
training epoch mean). -/
theorem claim_C6_final_best_le_all_monitored (st : BaseNNImputer)
    (TL : Nat → List ℚ) (VL : Option (Nat → List ℚ)) (i : Nat)
    (h : i < (trainModel st TL VL).epochs_run) :
    ∃ b, (trainModel st TL VL).st.best_loss = some b ∧
      b ≤ monitored TL VL i := by
  have key := runFrom_inv TL VL st.epochs.toNat 0 ⟨trainInit st, 0, false⟩
    rfl ⟨by simp [trainInit], fun _ => rfl, fun i h => nomatch h⟩
  obtain ⟨hiff, _, hsome⟩ := key
  replace h : i <
      (runFrom TL VL 0 st.epochs.toNat ⟨trainInit st, 0, false⟩).epochs_run := h
  cases hbc : (trainModel st TL VL).st.best_model_dict with
  | none =>
    rw [hiff.mp hbc] at h
    exact absurd h (Nat.not_lt_zero i)
  | some i0 =>
    obtain ⟨_, hbl, hle, _⟩ := hsome i0 hbc
    exact ⟨monitored TL VL i0, hbl, hle i h⟩

theorem claim_C6_witness :
    ∃ b, (trainModel c5St c5TL none).st.best_loss = some b ∧
      b ≤ monitored c5TL none 1 :=
  claim_C6_final_best_le_all_monitored c5St c5TL none 1
    (by norm_num [trainModel, trainInit, runFrom, monitored, qmean, ltBest,
      c5TL, c5St, mkImputer])

/-- C7: with epoch budget 0, `_train_model` performs no epoch, returns
normally, and leaves the best snapshot absent (`range(0)` is empty and
lines 88-89 have reset the best state); a subsequent `impute` on the
object then fails with the `NotFitted`-kind error. -/
theorem claim_C7_zero_budget_no_snapshot_impute_fails (st : BaseNNImputer)
    (TL : Nat → List ℚ) (VL : Option (Nat → List ℚ)) (X : TSData)
    (h : st.epochs = 0) :
    (trainModel st TL VL).epochs_run = 0 ∧
    (trainModel st TL VL).stopped_early = false ∧
    (trainModel st TL VL).st.best_model_dict = none ∧
    (trainModel st TL VL).st.best_loss = none ∧
    imputeChecked (trainModel st TL VL).st X =
      Except.error ImputerError.notFitted := by
  have h0 : st.epochs.toNat = 0 := by rw [h]; rfl
  rw [trainModel, h0]
  exact ⟨rfl, rfl, rfl, rfl, rfl⟩

theorem claim_C7_witness :
    (trainModel c7St (fun _ => [1]) none).epochs_run = 0 ∧
    (trainModel c7St (fun _ => [1]) none).stopped_early = false ∧
    (trainModel c7St (fun _ => [1]) none).st.best_model_dict = none ∧
    (trainModel c7St (fun _ => [1]) none).st.best_loss = none ∧
    imputeChecked (trainModel c7St (fun _ => [1]) none).st [] =
      Except.error ImputerError.notFitted :=
  claim_C7_zero_budget_no_snapshot_impute_fails c7St (fun _ => [1]) none [] rfl

/-- C8 as stated is false on the code: `__init__` performs no
validation, so the invalid configuration with learning rate 0, epoch
budget -1 and batch size 0 is accepted at construction time without any
error. -/
theorem claim_C8_counterexample :
    BaseNNImputer.init 0 (-1) 1 0 0 = Except.ok (mkImputer 0 (-1) 1 0 0) ∧
    (mkImputer 0 (-1) 1 0 0).lr = 0 ∧
    (mkImputer 0 (-1) 1 0 0).epochs = -1 ∧
    (mkImputer 0 (-1) 1 0 0).batch_size = 0 :=
  ⟨rfl, rfl, rfl, rfl⟩

/-- C8 (amended): the constructor never raises: every configuration —
including a negative epoch budget, a non-positive learning rate, or a
zero batch size — is stored verbatim and construction succeeds, so no
construction-time validation error exists to report. -/
theorem claim_C8_constructor_accepts_everything (lr : ℚ)
    (epochs patience batch_size : Int) (wd : ℚ) :
    BaseNNImputer.init lr epochs patience batch_size wd =
      Except.ok (mkImputer lr epochs patience batch_size wd) ∧
    (mkImputer lr epochs patience batch_size wd).epochs = epochs ∧
    (mkImputer lr epochs patience batch_size wd).lr = lr ∧
    (mkImputer lr epochs patience batch_size wd).batch_size = batch_size :=
  ⟨rfl, rfl, rfl, rfl⟩

/-- C9 as stated is false on the repository's own terms: the LOCF test
(`tests/imputation/locf.py` lines 69-72) asserts that with
`first_step_imputation="nan"` the output of `predict`/`impute` still has
missing values.  On the sample whose single feature is missing at the
first time step, the `nan`-strategy output keeps that entry missing
(shape is still preserved). -/
theorem claim_C9_counterexample :
    hasMissing (locfImpute FirstStep.nan [[[none], [some 1]]]) = true ∧
    shape (locfImpute FirstStep.nan [[[none], [some 1]]]) =
      shape [[[none], [some 1]]] := by
  exact ⟨rfl, rfl⟩

/-- C9 (amended): `impute` always returns data of identical shape
(every strategy), and the no-missing-entries-remain guarantee holds for
the total strategies (proved here for `zero`, as the repository's tests
assert for `zero`/`backward`/`mean` on their data) but not universally:
the `nan` strategy deliberately leaves entries with no preceding
observation missing. -/
theorem claim_C9_shape_preserved_zero_fills_all (strat : FirstStep)
    (X : TSData) :
    shape (locfImpute strat X) = shape X ∧
    hasMissing (locfImpute FirstStep.zero X) = false := by
  constructor
  · simp only [shape, locfImpute, List.map_map]
    apply List.map_congr_left
    intro sample _
    exact map_length_locfSample strat sample
  · induction X with
    | nil => rfl
    | cons sample rest ih =>
      simp only [locfImpute, List.map_cons, hasMissing, List.any_cons] at ih ⊢
      simp [any_isNone_locfSample_zero, ih]

/-- C10: `_train_model` builds a fresh Adam optimizer from the model's
parameters with the configured learning rate and weight decay before any
epoch runs: the run's outcome is independent of whatever optimizer the
object carried in from a previous call, and the optimizer entering the
loop is the freshly constructed one with zero accumulated internal
state. -/
theorem claim_C10_fresh_optimizer_every_call (st : BaseNNImputer)
    (TL : Nat → List ℚ) (VL : Option (Nat → List ℚ)) (o : Option AdamState) :
    trainModel { st with optimizer := o } TL VL = trainModel st TL VL ∧
    (trainInit st).optimizer = some (adamNew st.lr st.weight_decay) ∧
    (adamNew st.lr st.weight_decay).step_count = 0 ∧
    (adamNew st.lr st.weight_decay).lr = st.lr ∧
    (adamNew st.lr st.weight_decay).weight_decay = st.weight_decay :=
  ⟨rfl, rfl, rfl, rfl, rfl⟩
